import Mathlib

/-!
Verification of the ICS Birthday Harmonizer core (src/parser.py, src/generator.py,
src/models.py, src/config.py) against its natural-language specification.

The Python code is shallowly embedded: Python `datetime.date` values are triples of
naturals with an explicit validity predicate (a real Python `date` object is always
valid; our `mkDate?` models the fallible constructor `date(y, m, d)`, which raises
`ValueError` on invalid input), Python exceptions escaping the parse loop are
modelled with `Except`, and the `icalendar` event objects are modelled as records
with the optional fields the code actually consults.
-/

/-! ## Calendar dates (embedding of Python `datetime.date`) -/

/-- Proleptic Gregorian leap-year test, as used by Python `datetime`. -/
def isLeap (y : Nat) : Bool :=
  y % 4 == 0 && (y % 100 != 0 || y % 400 == 0)

/-- Number of days in month `m` of year `y` (months are 1-based); 0 for out-of-range months. -/
def daysInMonth (y m : Nat) : Nat :=
  match m with
  | 1 => 31
  | 2 => if isLeap y then 29 else 28
  | 3 => 31
  | 4 => 30
  | 5 => 31
  | 6 => 30
  | 7 => 31
  | 8 => 31
  | 9 => 30
  | 10 => 31
  | 11 => 30
  | 12 => 31
  | _ => 0

/-- A calendar date as a raw triple.  Python `date` objects are always valid;
validity of a triple is captured by `dateValid` below. -/
structure Date where
  year : Nat
  month : Nat
  day : Nat
deriving DecidableEq

/-- The constraints Python's `date(year, month, day)` constructor enforces. -/
def dateValid (d : Date) : Bool :=
  1 ≤ d.year && d.year ≤ 9999 && 1 ≤ d.month && d.month ≤ 12 &&
    1 ≤ d.day && d.day ≤ daysInMonth d.year d.month

/-- Embedding of the constructor call `date(y, m, d)`: `none` models the
`ValueError` raised on an invalid combination (e.g. Feb 29 of a non-leap year). -/
def mkDate? (y m d : Nat) : Option Date :=
  if dateValid ⟨y, m, d⟩ then some ⟨y, m, d⟩ else none

/-- Days in year `y` strictly before month `m` (for 1 ≤ m ≤ 12). -/
def daysBeforeMonth (y m : Nat) : Nat :=
  let l : Nat := if isLeap y then 1 else 0
  match m with
  | 1 => 0
  | 2 => 31
  | 3 => 59 + l
  | 4 => 90 + l
  | 5 => 120 + l
  | 6 => 151 + l
  | 7 => 181 + l
  | 8 => 212 + l
  | 9 => 243 + l
  | 10 => 273 + l
  | 11 => 304 + l
  | 12 => 334 + l
  | _ => 0

/-- Days strictly before January 1 of year `y` in the proleptic Gregorian calendar
(the count underlying Python's `date.toordinal`). -/
def daysBeforeYear (y : Nat) : Nat :=
  365 * (y - 1) + ((y - 1) / 4 - (y - 1) / 100 + (y - 1) / 400)

/-- Gregorian ordinal of a date (Python `date.toordinal`: 0001-01-01 has ordinal 1). -/
def toOrdinal (d : Date) : Nat :=
  daysBeforeYear d.year + daysBeforeMonth d.year d.month + d.day

/-- Embedding of `d + timedelta(days=1)`: the successor date under calendar rollover.
On every valid date this agrees with Python's ordinal-based addition
(`toOrdinal_nextDay` below proves the ordinal increases by exactly one). -/
def nextDay (d : Date) : Date :=
  if d.day < daysInMonth d.year d.month then ⟨d.year, d.month, d.day + 1⟩
  else if d.month < 12 then ⟨d.year, d.month + 1, 1⟩
  else ⟨d.year + 1, 1, 1⟩

/-! ## Configuration constants (src/config.py) -/

/-- `SENTINEL_YEAR = 1604  # Leap year for unknown birthdays` -/
def SENTINEL_YEAR : Nat := 1604

/-- `DEFAULT_ALARM_HOURS = 9  # 9:00 AM` -/
def DEFAULT_ALARM_HOURS : Nat := 9

/-! ## String helpers (Python `str.strip`, slicing, substring search) -/

/-- The ASCII whitespace characters stripped by Python `str.strip()`. -/
def isPySpace (c : Char) : Bool :=
  c == ' ' || c == '\t' || c == '\n' || c == '\r' || c == '\x0b' || c == '\x0c'

/-- Embedding of Python `s.strip()`: drop leading and trailing whitespace. -/
def pyStrip (s : String) : String :=
  String.mk (((s.data.dropWhile isPySpace).reverse.dropWhile isPySpace).reverse)

/-- Embedding of Python slicing `s[:n]`: the first `n` characters. -/
def pyTake (s : String) (n : Nat) : String :=
  String.mk (s.data.take n)

/-- Decides whether `needle` occurs as a contiguous block at the start of `hay`. -/
def prefixMatch : List Char → List Char → Bool
  | [], _ => true
  | _ :: _, [] => false
  | a :: as, b :: bs => a == b && prefixMatch as bs

/-- Decides whether `needle` occurs as a contiguous block anywhere in `hay`. -/
def substrSearch (needle : List Char) : List Char → Bool
  | [] => prefixMatch needle []
  | c :: rest => prefixMatch needle (c :: rest) || substrSearch needle rest

/-- Embedding of Python's `needle in hay` substring test. -/
def strContains (hay needle : String) : Bool :=
  substrSearch needle.data hay.data

/-! ## Year extraction (embedding of `ICSParser._extract_year`, src/parser.py:35-48)

The code runs `re.search(r"\b(19|20)\d{2}\b", text)` and converts the match to an
integer.  `re.search` scans start positions left to right; at a fixed start the
pattern can match in at most one way (the alternatives `19` and `20` are mutually
exclusive and everything else is rigid), so the search is exactly a left-to-right
scan for the first position satisfying the boundary and digit conditions. -/

/-- Regex word character (`\w`), restricted to ASCII as in the inputs of interest. -/
def isWordChar (c : Char) : Bool :=
  c.isAlphanum || c == '_'

/-- The `(19|20)` alternative of the pattern. -/
def isYearLead (c1 c2 : Char) : Bool :=
  (c1 == '1' && c2 == '9') || (c1 == '2' && c2 == '0')

/-- Numeric value of an ASCII digit character. -/
def digitVal (c : Char) : Nat :=
  c.toNat - '0'.toNat

/-- `int(match.group(0))` for the four matched digit characters. -/
def yearVal (c1 c2 c3 c4 : Char) : Nat :=
  1000 * digitVal c1 + 100 * digitVal c2 + 10 * digitVal c3 + digitVal c4

/-- The `\b` before the first digit: satisfied at the string start or after a
non-word character (the first matched character is itself a word character). -/
def headBoundary : Option Char → Bool
  | none => true
  | some c => !isWordChar c

/-- The `\b` after the last digit: satisfied at the string end or before a
non-word character. -/
def tailBoundary : List Char → Bool
  | [] => true
  | c :: _ => !isWordChar c

/-- Attempt to match `\b(19|20)\d{2}\b` exactly at the head of `l`, where `prev`
is the character immediately before `l` (`none` at the string start). -/
def matchHere (prev : Option Char) (l : List Char) : Option Nat :=
  match l with
  | c1 :: c2 :: c3 :: c4 :: rest =>
    if headBoundary prev && isYearLead c1 c2 && c3.isDigit && c4.isDigit &&
        tailBoundary rest then
      some (yearVal c1 c2 c3 c4)
    else
      none
  | _ => none

/-- The left-to-right scan performed by `re.search` for this pattern. -/
def scanYear (prev : Option Char) (l : List Char) : Option Nat :=
  match l with
  | [] => none
  | c :: rest =>
    match matchHere prev (c :: rest) with
    | some y => some y
    | none => scanYear (some c) rest

/-- Embedding of `ICSParser._extract_year`. -/
def extract_year (s : String) : Option Nat :=
  scanYear none s.data

/-! ## Spec-side characterisation of year extraction

Modelled from the spec's words: "a 4-digit token whose first two digits are 19 or
20, using word-boundary matching (i.e., not embedded in a longer digit run) —
leftmost match wins if multiple."  This is the second definition of a refinement
pair; `extract_year_eq_spec` below proves the code's scan equal to it. -/

/-- Word boundary on the left of position `i` of `cs`. -/
def leftBoundaryAt (cs : List Char) (i : Nat) : Bool :=
  match i with
  | 0 => true
  | j + 1 =>
    match cs.get? j with
    | none => true
    | some p => !isWordChar p

/-- Word boundary on the right of the four characters starting at position `i`. -/
def rightBoundaryAt (cs : List Char) (i : Nat) : Bool :=
  match cs.get? (i + 4) with
  | none => true
  | some n => !isWordChar n

/-- The year token of the spec located at position `i` of `cs`, if any: four digit
characters whose first two are "19" or "20", delimited by word boundaries. -/
def spec_tokenAt (cs : List Char) (i : Nat) : Option Nat :=
  match cs.get? i, cs.get? (i + 1), cs.get? (i + 2), cs.get? (i + 3) with
  | some c1, some c2, some c3, some c4 =>
    if leftBoundaryAt cs i && isYearLead c1 c2 && c3.isDigit && c4.isDigit &&
        rightBoundaryAt cs i then
      some (yearVal c1 c2 c3 c4)
    else
      none
  | _, _, _, _ => none

/-- The leftmost year token of a string, per the spec's words. -/
def spec_leftmostYearToken (s : String) : Option Nat :=
  (List.range s.data.length).findSome? (spec_tokenAt s.data)

/-- Suffix-oriented restatement of `spec_tokenAt` used to relate the indexed
characterisation to the sequential scan: `prev` is the character just before the
suffix `cs`. -/
def specTokenAtP (prev : Option Char) (cs : List Char) : Nat → Option Nat
  | 0 => matchHere prev cs
  | i + 1 =>
    match cs with
    | [] => none
    | c :: rest => specTokenAtP (some c) rest i

/-! ## Name recovery (embedding of `ICSParser._clean_name`, src/parser.py:50-68) -/

/-- `_clean_name(summary, uid)`: strip the summary; if empty, synthesize
`f"Unknown Birthday ({uid[:8]})"`. -/
def clean_name (summary uid : String) : String :=
  let name := pyStrip summary
  if name = "" then "Unknown Birthday (" ++ pyTake uid 8 ++ ")" else name

/-! ## The parse loop (embedding of `ICSParser.parse`, src/parser.py:70-129)

The `try`/`except` in `parse` wraps only the file read; an exception raised inside
the `for` loop (the `AttributeError` from `event.get("DTSTART").dt` when DTSTART
is absent, or the `ValueError` from the `date(...)` constructor) propagates out of
`parse`, losing all entries.  `Except PyError` models this. -/

/-- The Python exceptions that can escape the parse loop. -/
inductive PyError where
  | attributeError
  | valueError
deriving DecidableEq

/-- The value of `event.get("DTSTART").dt` as handed over by the `icalendar`
library: a pure `date`, a `datetime` (which, in Python, is a subclass of `date`),
or some other type (e.g. a `time` or `timedelta`). -/
inductive DTValue where
  | dateVal (d : Date)
  | datetimeVal (d : Date) (hour minute second : Nat)
  | otherVal
deriving DecidableEq

/-- Embedding of `isinstance(dtstart, date)` plus the subsequent attribute reads:
in Python, `datetime` is a subclass of `date`, so a datetime value passes the
check and its `.year`/`.month`/`.day` are used. -/
def dtAsDate : DTValue → Option Date
  | .dateVal d => some d
  | .datetimeVal d _ _ _ => some d
  | .otherVal => none

/-- A raw VEVENT as consulted by the parser: the component-kind check
(`isinstance(event, Event)`) and the four fields the code reads. -/
structure RawEvent where
  isEventInstance : Bool
  uid : Option String
  summary : Option String
  description : Option String
  dtstart : Option DTValue
deriving DecidableEq

/-- The internal data model (src/models.py `BirthdayEntry`). -/
structure BirthdayEntry where
  name : String
  birth_date : Date
  original_uid : Option String
  has_year : Bool
deriving DecidableEq

/-- Python `a or b` on `Optional[int]` operands: `a` unless it is falsy
(`None` or `0`). -/
def pyOr (a b : Option Nat) : Option Nat :=
  match a with
  | some n => if n = 0 then b else some n
  | none => b

/-- Python truthiness of an `Optional[int]` (`if not birth_year: ...`). -/
def pyTruthy (a : Option Nat) : Bool :=
  match a with
  | some n => n != 0
  | none => false

/-- The waterfall year recovery of src/parser.py:105-116: token from description,
else token from summary, else the start year when it is old enough, else the
sentinel.  Returns the chosen year and the `has_year` flag. -/
def recoverYear (todayYear : Nat) (d : Date) (description summary : String) :
    Nat × Bool :=
  let birthYear := pyOr (extract_year description) (extract_year summary)
  if pyTruthy birthYear then (birthYear.getD 0, true)
  else if d.year < todayYear - 1 then (d.year, true)
  else (SENTINEL_YEAR, false)

/-- Processing of a single component of `cal.walk("VEVENT")` inside the loop of
`ICSParser.parse`.  `.ok none` models `continue` (record skipped), `.ok (some e)`
models `entries.append(e)`, and `.error` models an uncaught exception. -/
def processEvent (todayYear : Nat) (ev : RawEvent) : Except PyError (Option BirthdayEntry) :=
  if ev.isEventInstance = false then .ok none
  else
    match ev.dtstart with
    | none => .error .attributeError
    | some dtv =>
      match dtAsDate dtv with
      | none => .ok none
      | some d =>
        match mkDate? (recoverYear todayYear d (ev.description.getD "") (ev.summary.getD "")).1
            d.month d.day with
        | none => .error .valueError
        | some bd =>
          .ok (some { name := clean_name (ev.summary.getD "") (ev.uid.getD "no-uid")
                      birth_date := bd
                      original_uid := some (ev.uid.getD "no-uid")
                      has_year := (recoverYear todayYear d (ev.description.getD "")
                        (ev.summary.getD "")).2 })

/-- The full loop of `ICSParser.parse` over the walked components: an exception
raised while processing any event aborts the batch (nothing already accumulated
is ever returned, since `parse` does not return normally in that case). -/
def parseEvents (todayYear : Nat) : List RawEvent → Except PyError (List BirthdayEntry)
  | [] => .ok []
  | ev :: rest =>
    match processEvent todayYear ev with
    | .error e => .error e
    | .ok none => parseEvents todayYear rest
    | .ok (some entry) =>
      match parseEvents todayYear rest with
      | .error e => .error e
      | .ok tail => .ok (entry :: tail)

/-- The year of the event's start value, when that value is a date or datetime. -/
def dtstartYearOf (ev : RawEvent) : Option Nat :=
  match ev.dtstart with
  | some dtv =>
    match dtAsDate dtv with
    | some d => some d.year
    | none => none
  | none => none

/-! ## The generator (embedding of `ICSGenerator`, src/generator.py) -/

/-- The VALARM sub-component built for every event. -/
structure VAlarm where
  action : String
  description : String
  triggerHours : Nat
  related : String
deriving DecidableEq

/-- A generated VEVENT with exactly the properties `_create_event` adds.  The
`uid`, `dtstamp` and `created` fields are the nondeterministic ones (`uuid4()`
and two calls of `datetime.now()`); timestamps are opaque naturals here. -/
structure VEvent where
  uid : String
  dtstamp : Nat
  created : Nat
  summary : String
  dtstart : Date
  dtend : Date
  rrule : List (String × String)
  description : String
  categories : List String
  transp : String
  status : String
  visibility : String
  alarm : VAlarm
deriving DecidableEq

/-- The VCALENDAR envelope plus its components. -/
structure VCalendar where
  prodid : String
  version : String
  xwrCalname : String
  components : List VEvent
deriving DecidableEq

/-- The generator object: its only state is the calendar it accumulates. -/
structure ICSGenerator where
  cal : VCalendar
deriving DecidableEq

/-- `ICSGenerator.__init__`: a fresh VCALENDAR with the three fixed properties. -/
def ICSGenerator.init : ICSGenerator :=
  ⟨⟨"-//Birthday Harmonizer//EN", "2.0", "Harmonized Birthdays", []⟩⟩

/-- `ICSGenerator._create_event`, with the nondeterministic inputs (the freshly
generated uid and the two `datetime.now()` readings) passed explicitly.
`dtend` embeds `entry.birth_date + timedelta(days=1)` (see `nextDay`);
`rrule` is the dict `{"freq": "yearly"}`. -/
def create_event (entry : BirthdayEntry) (uidv : String) (now1 now2 : Nat) : VEvent :=
  { uid := uidv
    dtstamp := now1
    created := now2
    summary := entry.name
    dtstart := entry.birth_date
    dtend := nextDay entry.birth_date
    rrule := [("freq", "yearly")]
    description := "Born: " ++ (if entry.has_year then toString entry.birth_date.year else "Unknown")
    categories := ["Birthday"]
    transp := "TRANSPARENT"
    status := "CONFIRMED"
    visibility := "PUBLIC"
    alarm := { action := "DISPLAY"
               description := "Birthday Reminder: " ++ entry.name
               triggerHours := DEFAULT_ALARM_HOURS
               related := "START" } }

/-- The loop body of `ICSGenerator.build`: `self.cal.add_component(...)` for each
entry, with the nondeterministic inputs supplied by the stream `nd` indexed by
the position of the entry in the list. -/
def buildGo (nd : Nat → String × Nat × Nat) (cal : VCalendar) :
    List BirthdayEntry → Nat → VCalendar
  | [], _ => cal
  | e :: rest, i =>
    buildGo nd
      { cal with components := cal.components ++ [create_event e (nd i).1 (nd i).2.1 (nd i).2.2] }
      rest (i + 1)

/-- `ICSGenerator.build`: mutates `self.cal` by appending one event per entry and
returns the serialized calendar (`self.cal.to_ical()`), modelled as the calendar
value itself.  The pair is (post-state, returned output). -/
def ICSGenerator.build (g : ICSGenerator) (entries : List BirthdayEntry)
    (nd : Nat → String × Nat × Nat) : ICSGenerator × VCalendar :=
  let cal := buildGo nd g.cal entries 0
  (⟨cal⟩, cal)

/-- The events `build` constructs from `entries` with nondeterminism stream `nd`
starting at index `i` (specification of `buildGo`'s effect). -/
def eventsFrom (nd : Nat → String × Nat × Nat) : List BirthdayEntry → Nat → List VEvent
  | [], _ => []
  | e :: rest, i =>
    create_event e (nd i).1 (nd i).2.1 (nd i).2.2 :: eventsFrom nd rest (i + 1)

/-- Equality of generated events on every field other than the explicitly
nondeterministic `uid`, `dtstamp` and `created`. -/
def eventEqModNondet (e1 e2 : VEvent) : Prop :=
  e1.summary = e2.summary ∧ e1.dtstart = e2.dtstart ∧ e1.dtend = e2.dtend ∧
    e1.rrule = e2.rrule ∧ e1.description = e2.description ∧
    e1.categories = e2.categories ∧ e1.transp = e2.transp ∧
    e1.status = e2.status ∧ e1.visibility = e2.visibility ∧ e1.alarm = e2.alarm

/-! ## Lemmas: the scan computes the leftmost spec token -/

/-- At position 0 the indexed token test coincides with matching at the head with
no preceding character. -/
theorem spec_tokenAt_zero (cs : List Char) : spec_tokenAt cs 0 = matchHere none cs := by
  match cs with
  | [] => rfl
  | [c1] => rfl
  | [c1, c2] => rfl
  | [c1, c2, c3] => rfl
  | c1 :: c2 :: c3 :: c4 :: rest => cases rest <;> rfl

/-- At position 1 of `c :: cs` the indexed token test coincides with matching at
the head of `cs` with `c` as the preceding character. -/
theorem spec_tokenAt_one (c : Char) (cs : List Char) :
    spec_tokenAt (c :: cs) 1 = matchHere (some c) cs := by
  match cs with
  | [] => rfl
  | [c1] => rfl
  | [c1, c2] => rfl
  | [c1, c2, c3] => rfl
  | c1 :: c2 :: c3 :: c4 :: rest => cases rest <;> rfl

/-- Dropping the head of the list shifts token positions ≥ 2 down by one. -/
theorem spec_tokenAt_shift (c : Char) (l : List Char) (j : Nat) :
    spec_tokenAt (c :: l) (j + 2) = spec_tokenAt l (j + 1) := rfl

/-- The indexed token test agrees with its suffix-oriented restatement. -/
theorem spec_tokenAt_succ (i : Nat) (c : Char) (cs : List Char) :
    spec_tokenAt (c :: cs) (i + 1) = specTokenAtP (some c) cs i := by
  induction i generalizing c cs with
  | zero =>
    have h0 : specTokenAtP (some c) cs 0 = matchHere (some c) cs := by
      simp only [specTokenAtP]
    rw [h0]
    exact spec_tokenAt_one c cs
  | succ j ih =>
    match cs with
    | [] => rfl
    | c' :: rest =>
      show spec_tokenAt (c :: c' :: rest) (j + 2) = specTokenAtP (some c') rest j
      rw [spec_tokenAt_shift]
      exact ih c' rest

/-- The indexed token test equals the suffix-oriented one started with no
preceding character. -/
theorem spec_tokenAt_eq_P (cs : List Char) (i : Nat) :
    spec_tokenAt cs i = specTokenAtP none cs i := by
  match i with
  | 0 =>
    have h0 : specTokenAtP none cs 0 = matchHere none cs := by
      simp only [specTokenAtP]
    rw [h0]
    exact spec_tokenAt_zero cs
  | i + 1 =>
    match cs with
    | [] => rfl
    | c :: rest => exact spec_tokenAt_succ i c rest

/-- `findSome?` only depends on the pointwise values of its function. -/
theorem findSome?_ext {α β : Type} (f g : α → Option β) (l : List α)
    (h : ∀ x, f x = g x) : l.findSome? f = l.findSome? g := by
  induction l with
  | nil => rfl
  | cons a as ih => rw [List.findSome?_cons, List.findSome?_cons, h a, ih]

/-- The sequential scan is the first hit of the suffix-oriented token test over
all start positions. -/
theorem scanYear_eq_findSome (l : List Char) (prev : Option Char) :
    scanYear prev l = (List.range l.length).findSome? (specTokenAtP prev l) := by
  induction l generalizing prev with
  | nil => rfl
  | cons c rest ih =>
    rw [List.length_cons, List.range_succ_eq_map, List.findSome?_cons]
    have h0 : specTokenAtP prev (c :: rest) 0 = matchHere prev (c :: rest) := rfl
    rw [h0]
    cases hm : matchHere prev (c :: rest) with
    | some y => simp only [scanYear, hm]
    | none =>
      simp only [scanYear, hm]
      rw [ih (some c), List.findSome?_map]
      exact findSome?_ext _ _ _ (fun i => rfl)

/-- The code's `_extract_year` returns exactly the leftmost word-bounded
19xx/20xx token of its input, as the spec describes. -/
theorem extract_year_eq_spec (s : String) :
    extract_year s = spec_leftmostYearToken s := by
  rw [extract_year, spec_leftmostYearToken, scanYear_eq_findSome]
  exact findSome?_ext _ _ _ (fun i => (spec_tokenAt_eq_P s.data i).symm)

/-- Any value produced by a head match is at least 1900. -/
theorem matchHere_ge (prev : Option Char) (l : List Char) (y : Nat)
    (h : matchHere prev l = some y) : 1900 ≤ y := by
  match l with
  | [] => simp [matchHere] at h
  | [c1] => simp [matchHere] at h
  | [c1, c2] => simp [matchHere] at h
  | [c1, c2, c3] => simp [matchHere] at h
  | c1 :: c2 :: c3 :: c4 :: rest =>
    rw [matchHere] at h
    split at h
    · next hc =>
      injection h with h'
      subst h'
      simp only [Bool.and_eq_true] at hc
      have hl := hc.1.1.1.2
      rw [isYearLead, Bool.or_eq_true, Bool.and_eq_true, Bool.and_eq_true] at hl
      rcases hl with ⟨h1, h2⟩ | ⟨h1, h2⟩ <;>
        rw [beq_iff_eq] at h1 h2 <;> subst h1 <;> subst h2 <;>
        · rw [yearVal]
          have e1 : digitVal '1' = 1 := rfl
          have e2 : digitVal '9' = 9 := rfl
          have e3 : digitVal '2' = 2 := rfl
          have e4 : digitVal '0' = 0 := rfl
          first
          | (rw [e1, e2]; omega)
          | (rw [e3, e4]; omega)
    · exact absurd h (by simp)

/-- Any year the scan returns is at least 1900. -/
theorem scanYear_ge (l : List Char) (prev : Option Char) (y : Nat)
    (h : scanYear prev l = some y) : 1900 ≤ y := by
  induction l generalizing prev with
  | nil => simp [scanYear] at h
  | cons c rest ih =>
    rw [scanYear] at h
    cases hm : matchHere prev (c :: rest) with
    | some y' =>
      rw [hm] at h
      injection h with h'
      subst h'
      exact matchHere_ge _ _ _ hm
    | none =>
      rw [hm] at h
      exact ih _ h

/-- Any year `_extract_year` returns is at least 1900 (hence nonzero, truthy, and
distinct from the sentinel 1604). -/
theorem extract_year_ge (s : String) (y : Nat) (h : extract_year s = some y) :
    1900 ≤ y :=
  scanYear_ge s.data none y h

/-! ## Lemmas: inversion of the per-event processing -/

/-- Inversion: if processing an event appended a record, the event passed the
instance check, its start value was a date or datetime `d`, and the record's
fields are exactly the ones the loop body constructs. -/
theorem processEvent_ok_some (t : Nat) (ev : RawEvent) (entry : BirthdayEntry)
    (h : processEvent t ev = .ok (some entry)) :
    ∃ dtv d, ev.dtstart = some dtv ∧ dtAsDate dtv = some d ∧
      ev.isEventInstance = true ∧
      entry = { name := clean_name (ev.summary.getD "") (ev.uid.getD "no-uid")
                birth_date := ⟨(recoverYear t d (ev.description.getD "") (ev.summary.getD "")).1,
                               d.month, d.day⟩
                original_uid := some (ev.uid.getD "no-uid")
                has_year := (recoverYear t d (ev.description.getD "") (ev.summary.getD "")).2 } := by
  rw [processEvent] at h
  split at h
  · exact absurd h (by simp)
  · next hinst =>
    rw [Bool.not_eq_false] at hinst
    split at h
    · exact absurd h (by simp)
    · next dtv hdt =>
      split at h
      · exact absurd h (by simp)
      · next d hdd =>
        split at h
        · exact absurd h (by simp)
        · next bd hbd =>
          refine ⟨dtv, d, hdt, hdd, hinst, ?_⟩
          rw [mkDate?] at hbd
          split at hbd
          · injection hbd with hbd'
            injection h with h'
            injection h' with h''
            rw [← h'', ← hbd']
          · exact absurd hbd (by simp)

/-- Case analysis of the waterfall year recovery (src/parser.py:105-116):
either the description token wins, or the summary token wins, or the start-year
heuristic applies, or the sentinel is used. -/
theorem recoverYear_cases (t : Nat) (d : Date) (desc summ : String) :
    (∃ y, extract_year desc = some y ∧ 1900 ≤ y ∧
        recoverYear t d desc summ = (y, true)) ∨
    (extract_year desc = none ∧ ∃ y, extract_year summ = some y ∧ 1900 ≤ y ∧
        recoverYear t d desc summ = (y, true)) ∨
    (extract_year desc = none ∧ extract_year summ = none ∧
      ((d.year < t - 1 ∧ recoverYear t d desc summ = (d.year, true)) ∨
       (¬ d.year < t - 1 ∧ recoverYear t d desc summ = (SENTINEL_YEAR, false)))) := by
  cases he1 : extract_year desc with
  | some y =>
    have hy := extract_year_ge desc y he1
    left
    refine ⟨y, rfl, hy, ?_⟩
    rw [recoverYear, he1]
    have h0 : ¬ y = 0 := by omega
    simp [pyOr, pyTruthy, h0]
  | none =>
    cases he2 : extract_year summ with
    | some y =>
      have hy := extract_year_ge summ y he2
      right; left
      refine ⟨rfl, y, rfl, hy, ?_⟩
      rw [recoverYear, he1, he2]
      have h0 : ¬ y = 0 := by omega
      simp [pyOr, pyTruthy, h0]
    | none =>
      right; right
      refine ⟨rfl, rfl, ?_⟩
      by_cases hlt : d.year < t - 1
      · left
        refine ⟨hlt, ?_⟩
        rw [recoverYear, he1, he2]
        simp [pyOr, pyTruthy, hlt]
      · right
        refine ⟨hlt, ?_⟩
        rw [recoverYear, he1, he2]
        simp [pyOr, pyTruthy, hlt]

/-! ## Lemmas: the generator loop -/

/-- `buildGo` appends exactly the events built from the entries. -/
theorem buildGo_eq (nd : Nat → String × Nat × Nat) (es : List BirthdayEntry) :
    ∀ (cal : VCalendar) (i : Nat),
      buildGo nd cal es i = { cal with components := cal.components ++ eventsFrom nd es i } := by
  induction es with
  | nil => intro cal i; simp [buildGo, eventsFrom]
  | cons e rest ih =>
    intro cal i
    rw [buildGo, eventsFrom, ih]
    simp

/-- One event is built per entry. -/
theorem eventsFrom_length (nd : Nat → String × Nat × Nat) (es : List BirthdayEntry) :
    ∀ i, (eventsFrom nd es i).length = es.length := by
  induction es with
  | nil => intro i; rfl
  | cons e rest ih => intro i; rw [eventsFrom, List.length_cons, List.length_cons, ih]

/-- Every field of a built event other than `uid`, `dtstamp` and `created` is a
function of the entry alone. -/
theorem create_event_eqModNondet (e : BirthdayEntry) (u1 u2 : String) (a1 a2 b1 b2 : Nat) :
    eventEqModNondet (create_event e u1 a1 b1) (create_event e u2 a2 b2) :=
  ⟨rfl, rfl, rfl, rfl, rfl, rfl, rfl, rfl, rfl, rfl⟩

/-- `eventEqModNondet` is reflexive. -/
theorem eventEqModNondet_refl (e : VEvent) : eventEqModNondet e e :=
  ⟨rfl, rfl, rfl, rfl, rfl, rfl, rfl, rfl, rfl, rfl⟩

/-- Two runs of the builder over the same entries with different nondeterminism
streams produce componentwise `eventEqModNondet`-related events. -/
theorem eventsFrom_forall2 (es : List BirthdayEntry) (nd1 nd2 : Nat → String × Nat × Nat) :
    ∀ i1 i2, List.Forall₂ eventEqModNondet (eventsFrom nd1 es i1) (eventsFrom nd2 es i2) := by
  induction es with
  | nil => intro i1 i2; exact List.Forall₂.nil
  | cons e rest ih =>
    intro i1 i2
    rw [eventsFrom, eventsFrom]
    exact List.Forall₂.cons (create_event_eqModNondet e _ _ _ _ _ _) (ih _ _)

/-- `Forall₂` is preserved by appending related lists. -/
theorem forall2_append {α : Type} (r : α → α → Prop) (a b c d : List α)
    (h1 : List.Forall₂ r a b) (h2 : List.Forall₂ r c d) :
    List.Forall₂ r (a ++ c) (b ++ d) := by
  induction h1 with
  | nil => simpa using h2
  | cons hr _ ih => simp only [List.cons_append]; exact List.Forall₂.cons hr ih

/-! ## Lemmas: substring containment -/

/-- Every list is a block-prefix of itself. -/
theorem prefixMatch_self (l : List Char) : prefixMatch l l = true := by
  induction l with
  | nil => rfl
  | cons c rest ih => simp [prefixMatch, ih]

/-- A suffix is found by the substring search. -/
theorem substrSearch_append (l : List Char) :
    ∀ pre : List Char, substrSearch l (pre ++ l) = true := by
  intro pre
  induction pre with
  | nil =>
    cases l with
    | nil => rfl
    | cons c rest => simp [substrSearch, prefixMatch_self]
  | cons p pre' ih => simp [substrSearch, ih]

/-- Python's `in`: a string contains any suffix of itself. -/
theorem strContains_append_right (pre s : String) : strContains (pre ++ s) s = true :=
  substrSearch_append s.data pre.data

/-! ## Lemmas: dates -/

/-- The month table is cumulative: days before month `m+1` are the days before
month `m` plus the length of month `m`. -/
theorem daysBeforeMonth_succ (y m : Nat) (h1 : 1 ≤ m) (h2 : m ≤ 11) :
    daysBeforeMonth y (m + 1) = daysBeforeMonth y m + daysInMonth y m := by
  interval_cases m <;> cases hL : isLeap y <;>
    simp [daysBeforeMonth, daysInMonth, hL]

/-- Advancing a year adds 365 days, or 366 in a leap year. -/
theorem daysBeforeYear_succ (y : Nat) (h1 : 1 ≤ y) :
    daysBeforeYear (y + 1) = daysBeforeYear y + 365 + (if isLeap y then 1 else 0) := by
  rw [daysBeforeYear, daysBeforeYear]
  cases hL : isLeap y <;> simp only [isLeap, Bool.and_eq_true, Bool.and_eq_false_iff,
    Bool.or_eq_true, Bool.or_eq_false_iff, beq_iff_eq, bne_iff_ne, beq_eq_false_iff_ne,
    bne_eq_false_iff_eq, ne_eq] at hL
  · rcases hL with h4 | ⟨h100, h400⟩ <;> simp <;> omega
  · rcases hL with ⟨h4, h100 | h400⟩ <;> simp <;> omega

/-- December has 31 days and is preceded by 334 days, plus one in a leap year. -/
theorem daysBeforeMonth_twelve (y : Nat) :
    daysBeforeMonth y 12 + daysInMonth y 12 = 365 + (if isLeap y then 1 else 0) := by
  cases hL : isLeap y <;> simp [daysBeforeMonth, daysInMonth, hL]

/-- On every valid date, rolling over to the next day advances the Gregorian
ordinal by exactly one: `nextDay` agrees with Python's `+ timedelta(days=1)`. -/
theorem toOrdinal_nextDay (d : Date) (h : dateValid d = true) :
    toOrdinal (nextDay d) = toOrdinal d + 1 := by
  rw [dateValid] at h
  simp only [Bool.and_eq_true, decide_eq_true_eq] at h
  obtain ⟨⟨⟨⟨⟨hy1, hy2⟩, hm1⟩, hm2⟩, hd1⟩, hd2⟩ := h
  rw [nextDay]
  split
  · next hday =>
    show daysBeforeYear d.year + daysBeforeMonth d.year d.month + (d.day + 1) =
      daysBeforeYear d.year + daysBeforeMonth d.year d.month + d.day + 1
    omega
  · next hday =>
    split
    · next hm =>
      show daysBeforeYear d.year + daysBeforeMonth d.year (d.month + 1) + 1 =
        daysBeforeYear d.year + daysBeforeMonth d.year d.month + d.day + 1
      rw [daysBeforeMonth_succ d.year d.month hm1 (by omega)]
      omega
    · next hm =>
      have hm12 : d.month = 12 := by omega
      show daysBeforeYear (d.year + 1) + daysBeforeMonth (d.year + 1) 1 + 1 =
        daysBeforeYear d.year + daysBeforeMonth d.year d.month + d.day + 1
      rw [hm12] at hday hd2 ⊢
      have h12 := daysBeforeMonth_twelve d.year
      have hdy := daysBeforeYear_succ d.year hy1
      have hdb1 : daysBeforeMonth (d.year + 1) 1 = 0 := rfl
      rw [hdb1]
      omega

/-! ## Claim theorems -/

/-- C1, counterexample: an event whose start date itself lies in year 1604 (and
carries no 19xx/20xx token) is given `has_year = true` with `birth_date.year =
SENTINEL_YEAR`, refuting the claimed equivalence "`has_year` is false iff the
birth year is the sentinel" for records produced by `parse`. -/
theorem sentinel_iff_fails_on_1604_start :
    processEvent 2026 ⟨true, some "u1", some "Old", some "", some (.dateVal ⟨1604, 5, 4⟩)⟩ =
      .ok (some ⟨"Old", ⟨1604, 5, 4⟩, some "u1", true⟩) ∧
    (⟨"Old", ⟨1604, 5, 4⟩, some "u1", true⟩ : BirthdayEntry).has_year = true ∧
    (⟨"Old", ⟨1604, 5, 4⟩, some "u1", true⟩ : BirthdayEntry).birth_date.year = SENTINEL_YEAR :=
  ⟨rfl, rfl, rfl⟩

/-- C1 (amended): for every record produced by the parse loop, `has_year = false`
implies `birth_date.year = SENTINEL_YEAR` unconditionally; and the full
equivalence `has_year = false ↔ birth_date.year = SENTINEL_YEAR` holds whenever
the source event's start year is not itself the sentinel year 1604. -/
theorem sentinel_iff_amended (t : Nat) (ev : RawEvent) (entry : BirthdayEntry)
    (h : processEvent t ev = .ok (some entry)) :
    (entry.has_year = false → entry.birth_date.year = SENTINEL_YEAR) ∧
    (dtstartYearOf ev ≠ some SENTINEL_YEAR →
      (entry.has_year = false ↔ entry.birth_date.year = SENTINEL_YEAR)) := by
  obtain ⟨dtv, d, hdt, hdd, hinst, rfl⟩ := processEvent_ok_some t ev entry h
  have hdy : dtstartYearOf ev = some d.year := by simp [dtstartYearOf, hdt, hdd]
  rcases recoverYear_cases t d (ev.description.getD "") (ev.summary.getD "") with
    ⟨y', _, hy', hr⟩ | ⟨_, y', _, hy', hr⟩ | ⟨_, _, ⟨hlt, hr⟩ | ⟨hge, hr⟩⟩
  · rw [hr]
    constructor
    · show (true = false) → (y' = SENTINEL_YEAR)
      intro hf; exact absurd hf (by simp)
    · intro _
      show (true = false) ↔ (y' = SENTINEL_YEAR)
      rw [show SENTINEL_YEAR = 1604 from rfl]
      constructor
      · intro hf; exact absurd hf (by simp)
      · intro hy; exact absurd hy (by omega)
  · rw [hr]
    constructor
    · show (true = false) → (y' = SENTINEL_YEAR)
      intro hf; exact absurd hf (by simp)
    · intro _
      show (true = false) ↔ (y' = SENTINEL_YEAR)
      rw [show SENTINEL_YEAR = 1604 from rfl]
      constructor
      · intro hf; exact absurd hf (by simp)
      · intro hy; exact absurd hy (by omega)
  · rw [hr]
    constructor
    · show (true = false) → (d.year = SENTINEL_YEAR)
      intro hf; exact absurd hf (by simp)
    · intro hst
      show (true = false) ↔ (d.year = SENTINEL_YEAR)
      have hne : ¬ d.year = SENTINEL_YEAR := fun hc => hst (by rw [hdy, hc])
      constructor
      · intro hf; exact absurd hf (by simp)
      · intro hy; exact absurd hy hne
  · rw [hr]
    constructor
    · show (false = false) → (SENTINEL_YEAR = SENTINEL_YEAR)
      intro _; rfl
    · intro _
      show (false = false) ↔ (SENTINEL_YEAR = SENTINEL_YEAR)
      simp

/-- C1, witness for the amended theorem: a 2025 start processed in 2026 falls to
the sentinel branch; the forward implication gives the sentinel year, and since
the start year differs from 1604 the full equivalence holds as well. -/
theorem sentinel_iff_amended_witness :
    (⟨"Bob", ⟨1604, 3, 1⟩, some "u6", false⟩ : BirthdayEntry).birth_date.year = SENTINEL_YEAR ∧
    ((⟨"Bob", ⟨1604, 3, 1⟩, some "u6", false⟩ : BirthdayEntry).has_year = false ↔
      (⟨"Bob", ⟨1604, 3, 1⟩, some "u6", false⟩ : BirthdayEntry).birth_date.year = SENTINEL_YEAR) :=
  ⟨(sentinel_iff_amended 2026 ⟨true, some "u6", some "Bob", some "", some (.dateVal ⟨2025, 3, 1⟩)⟩
      ⟨"Bob", ⟨1604, 3, 1⟩, some "u6", false⟩ rfl).1 rfl,
   (sentinel_iff_amended 2026 ⟨true, some "u6", some "Bob", some "", some (.dateVal ⟨2025, 3, 1⟩)⟩
      ⟨"Bob", ⟨1604, 3, 1⟩, some "u6", false⟩ rfl).2 (by decide)⟩

/-- C2: evaluating the parse loop on a batch whose middle event pairs Feb 29 with
the recovered non-leap year 1999 shows the `ValueError` from `date(...)`
propagating and aborting the whole batch — the two well-formed events, which on
their own parse to two records, are lost, contradicting the claimed
per-record containment. -/
theorem feb29_failure_aborts_batch :
    parseEvents 2026
      [⟨true, some "a1", some "Ann", some "Born 1990", some (.dateVal ⟨2020, 5, 4⟩)⟩,
       ⟨true, some "b2", some "Bob", some "Born 1999", some (.dateVal ⟨2020, 2, 29⟩)⟩,
       ⟨true, some "c3", some "Cid", some "", some (.dateVal ⟨2020, 6, 1⟩)⟩] =
      .error .valueError ∧
    parseEvents 2026
      [⟨true, some "a1", some "Ann", some "Born 1990", some (.dateVal ⟨2020, 5, 4⟩)⟩,
       ⟨true, some "c3", some "Cid", some "", some (.dateVal ⟨2020, 6, 1⟩)⟩] =
      .ok [⟨"Ann", ⟨1990, 5, 4⟩, some "a1", true⟩, ⟨"Cid", ⟨2020, 6, 1⟩, some "c3", true⟩] :=
  ⟨rfl, rfl⟩

/-- C3: evaluating the parse loop shows (i) an event with no start value raises
an `AttributeError` (`None.dt`) that aborts the whole parse instead of skipping
the event, and (ii) an event whose start is a date-time is not skipped — since
Python's `datetime` is a subclass of `date`, the `isinstance` guard passes and a
record is produced from the date-time's components. -/
theorem missing_or_datetime_start_not_skipped :
    parseEvents 2026 [⟨true, some "u4", some "Dan", some "", none⟩] = .error .attributeError ∧
    processEvent 2026 ⟨true, some "u5", some "Eve", some "", some (.datetimeVal ⟨2020, 5, 4⟩ 10 30 0)⟩ =
      .ok (some ⟨"Eve", ⟨2020, 5, 4⟩, some "u5", true⟩) :=
  ⟨rfl, rfl⟩

/-- A fixed nondeterminism stream for concrete evaluations of the builder. -/
def ndZero : Nat → String × Nat × Nat := fun _ => ("", 0, 0)

/-- C4, counterexample: `build` does have an observable effect on the builder's
state — it appends the built events to `self.cal`, so the post-state differs from
the initial state and a second `build` on the same builder returns a calendar
containing the first batch again (two events instead of one). -/
theorem build_mutates_builder_state :
    (ICSGenerator.init.build [⟨"Ann", ⟨1990, 5, 4⟩, some "a1", true⟩] ndZero).1 ≠
      ICSGenerator.init ∧
    ((ICSGenerator.init.build [⟨"Ann", ⟨1990, 5, 4⟩, some "a1", true⟩] ndZero).1.build
        [⟨"Ann", ⟨1990, 5, 4⟩, some "a1", true⟩] ndZero).2.components.length = 2 ∧
    (ICSGenerator.init.build [⟨"Ann", ⟨1990, 5, 4⟩, some "a1", true⟩] ndZero).2.components.length = 1 := by
  refine ⟨?_, rfl, rfl⟩
  decide

/-- C4 (amended): from builders in equal states, two invocations of `build` on
equal input lists produce calendars with identical envelopes and componentwise
equal events on every field other than `uid`, `dtstamp` and `created`; however
`build` mutates the builder, appending one event per record to its calendar. -/
theorem build_deterministic_mod_uid_timestamps
    (g : ICSGenerator) (entries : List BirthdayEntry) (nd1 nd2 : Nat → String × Nat × Nat) :
    (g.build entries nd1).2.prodid = (g.build entries nd2).2.prodid ∧
    (g.build entries nd1).2.version = (g.build entries nd2).2.version ∧
    (g.build entries nd1).2.xwrCalname = (g.build entries nd2).2.xwrCalname ∧
    List.Forall₂ eventEqModNondet (g.build entries nd1).2.components
      (g.build entries nd2).2.components ∧
    (g.build entries nd1).1.cal.components.length =
      g.cal.components.length + entries.length := by
  have h1 := buildGo_eq nd1 entries g.cal 0
  have h2 := buildGo_eq nd2 entries g.cal 0
  have e1 : (g.build entries nd1).2 = buildGo nd1 g.cal entries 0 := rfl
  have e2 : (g.build entries nd2).2 = buildGo nd2 g.cal entries 0 := rfl
  have e3 : (g.build entries nd1).1.cal = buildGo nd1 g.cal entries 0 := rfl
  rw [e1, e2, e3, h1, h2]
  refine ⟨rfl, rfl, rfl, ?_, ?_⟩
  · exact forall2_append _ _ _ _ _
      ((List.forall₂_same).mpr (fun x _ => eventEqModNondet_refl x))
      (eventsFrom_forall2 entries nd1 nd2 0 0)
  · show (g.cal.components ++ eventsFrom nd1 entries 0).length =
      g.cal.components.length + entries.length
    rw [List.length_append, eventsFrom_length]

/-- C5: for every event the parse loop turns into a record, if the description
(or, failing that, the summary) contains a word-bounded 19xx/20xx token, the
record's birth year is the value of the leftmost such token of the first field
that has one — description searched before title — and `has_year` is true. -/
theorem year_token_priority (t : Nat) (ev : RawEvent) (entry : BirthdayEntry) (y : Nat)
    (h : processEvent t ev = .ok (some entry))
    (htok : spec_leftmostYearToken (ev.description.getD "") = some y ∨
      (spec_leftmostYearToken (ev.description.getD "") = none ∧
        spec_leftmostYearToken (ev.summary.getD "") = some y)) :
    entry.birth_date.year = y ∧ entry.has_year = true := by
  obtain ⟨dtv, d, hdt, hdd, hinst, rfl⟩ := processEvent_ok_some t ev entry h
  rw [← extract_year_eq_spec, ← extract_year_eq_spec] at htok
  rcases recoverYear_cases t d (ev.description.getD "") (ev.summary.getD "") with
    ⟨y', he, hy', hr⟩ | ⟨hn, y', he, hy', hr⟩ | ⟨hn1, hn2, _⟩
  · rcases htok with hd | ⟨hd, _⟩
    · rw [he] at hd
      injection hd with hd'
      subst hd'
      rw [hr]
      exact ⟨rfl, rfl⟩
    · rw [he] at hd
      exact absurd hd (by simp)
  · rcases htok with hd | ⟨_, hs⟩
    · rw [hn] at hd
      exact absurd hd (by simp)
    · rw [he] at hs
      injection hs with hs'
      subst hs'
      rw [hr]
      exact ⟨rfl, rfl⟩
  · rcases htok with hd | ⟨_, hs⟩
    · rw [hn1] at hd
      exact absurd hd (by simp)
    · rw [hn2] at hs
      exact absurd hs (by simp)

/-- C5, witness: "Born 1990" in the description yields birth year 1990 with
`has_year = true`. -/
theorem year_token_priority_witness :
    spec_leftmostYearToken "Born 1990" = some 1990 ∧
    ((⟨"Jane", ⟨1990, 5, 4⟩, some "a7", true⟩ : BirthdayEntry).birth_date.year = 1990 ∧
      (⟨"Jane", ⟨1990, 5, 4⟩, some "a7", true⟩ : BirthdayEntry).has_year = true) :=
  ⟨rfl,
    year_token_priority 2026
      ⟨true, some "a7", some "Jane", some "Born 1990", some (.dateVal ⟨2020, 5, 4⟩)⟩
      ⟨"Jane", ⟨1990, 5, 4⟩, some "a7", true⟩ 1990 rfl (Or.inl rfl)⟩

/-- C6: for every event the parse loop turns into a record, if neither the
description nor the summary contains a 19xx/20xx token, then a start year older
than `today - 1` becomes the birth year with `has_year = true`, and otherwise the
sentinel year is used with `has_year = false`. -/
theorem startyear_fallback (t : Nat) (ev : RawEvent) (dtv : DTValue) (d : Date)
    (entry : BirthdayEntry)
    (hdt : ev.dtstart = some dtv) (hdd : dtAsDate dtv = some d)
    (h : processEvent t ev = .ok (some entry))
    (hno1 : spec_leftmostYearToken (ev.description.getD "") = none)
    (hno2 : spec_leftmostYearToken (ev.summary.getD "") = none) :
    (d.year < t - 1 → entry.birth_date.year = d.year ∧ entry.has_year = true) ∧
    (¬ d.year < t - 1 → entry.has_year = false ∧ entry.birth_date.year = SENTINEL_YEAR) := by
  obtain ⟨dtv', d', hdt', hdd', hinst, rfl⟩ := processEvent_ok_some t ev entry h
  rw [hdt] at hdt'
  injection hdt' with hdtv
  subst hdtv
  rw [hdd] at hdd'
  injection hdd' with hd'
  subst hd'
  rw [← extract_year_eq_spec] at hno1 hno2
  rcases recoverYear_cases t d (ev.description.getD "") (ev.summary.getD "") with
    ⟨y', he, _, _⟩ | ⟨_, y', he, _, _⟩ | ⟨_, _, ⟨hlt, hr⟩ | ⟨hge, hr⟩⟩
  · rw [hno1] at he
    exact absurd he (by simp)
  · rw [hno2] at he
    exact absurd he (by simp)
  · refine ⟨fun _ => ?_, fun hc => absurd hlt hc⟩
    rw [hr]
    exact ⟨rfl, rfl⟩
  · refine ⟨fun hc => absurd hc hge, fun _ => ?_⟩
    rw [hr]
    exact ⟨rfl, rfl⟩

/-- C6, witness: a tokenless event with start year 2020 processed in 2026 keeps
2020 as the birth year with `has_year = true`. -/
theorem startyear_fallback_witness :
    (2020 : Nat) < 2026 - 1 ∧
    ((⟨"Cid", ⟨2020, 6, 1⟩, some "c8", true⟩ : BirthdayEntry).birth_date.year = 2020 ∧
      (⟨"Cid", ⟨2020, 6, 1⟩, some "c8", true⟩ : BirthdayEntry).has_year = true) :=
  ⟨by decide,
    (startyear_fallback 2026 ⟨true, some "c8", some "Cid", some "", some (.dateVal ⟨2020, 6, 1⟩)⟩
      (.dateVal ⟨2020, 6, 1⟩) ⟨2020, 6, 1⟩ ⟨"Cid", ⟨2020, 6, 1⟩, some "c8", true⟩
      rfl rfl rfl rfl rfl).1 (by decide)⟩

/-- C7: the built event's description embeds the record's year as a decimal
string when `has_year` is true, and the literal "Unknown" — never the sentinel
digits "1604" — when `has_year` is false. -/
theorem built_description_tracks_has_year (entry : BirthdayEntry) (uidv : String) (t1 t2 : Nat) :
    (entry.has_year = true →
      strContains (create_event entry uidv t1 t2).description
        (toString entry.birth_date.year) = true) ∧
    (entry.has_year = false →
      strContains (create_event entry uidv t1 t2).description "Unknown" = true ∧
      strContains (create_event entry uidv t1 t2).description "1604" = false) := by
  constructor
  · intro h
    show strContains
      ("Born: " ++ (if entry.has_year then toString entry.birth_date.year else "Unknown"))
      (toString entry.birth_date.year) = true
    rw [h, if_pos rfl]
    exact strContains_append_right "Born: " _
  · intro h
    have hd : (create_event entry uidv t1 t2).description = "Born: " ++ "Unknown" := by
      show "Born: " ++ (if entry.has_year then toString entry.birth_date.year else "Unknown") =
        "Born: " ++ "Unknown"
      rw [h]
      rfl
    rw [hd]
    exact ⟨by decide, by decide⟩

/-- C7, witness: a known year 1990 appears in the description; an unknown year
yields "Unknown" and no "1604". -/
theorem built_description_witness :
    strContains (create_event ⟨"Ann", ⟨1990, 5, 4⟩, some "w1", true⟩ "u" 0 0).description
      "1990" = true ∧
    strContains (create_event ⟨"Bob", ⟨1604, 3, 1⟩, some "w2", false⟩ "u" 0 0).description
      "Unknown" = true ∧
    strContains (create_event ⟨"Bob", ⟨1604, 3, 1⟩, some "w2", false⟩ "u" 0 0).description
      "1604" = false :=
  ⟨(built_description_tracks_has_year ⟨"Ann", ⟨1990, 5, 4⟩, some "w1", true⟩ "u" 0 0).1 rfl,
   ((built_description_tracks_has_year ⟨"Bob", ⟨1604, 3, 1⟩, some "w2", false⟩ "u" 0 0).2 rfl).1,
   ((built_description_tracks_has_year ⟨"Bob", ⟨1604, 3, 1⟩, some "w2", false⟩ "u" 0 0).2 rfl).2⟩

/-- C8: name recovery is idempotent on already-trimmed non-empty input, and its
result is never empty. -/
theorem clean_name_idempotent_and_nonempty (s uidv : String) :
    (pyStrip s = s → s ≠ "" → clean_name s uidv = s) ∧ clean_name s uidv ≠ "" := by
  constructor
  · intro h hne
    rw [clean_name]
    simp only [h]
    rw [if_neg hne]
  · show (if pyStrip s = "" then "Unknown Birthday (" ++ pyTake uidv 8 ++ ")" else pyStrip s) ≠ ""
    by_cases hp : pyStrip s = ""
    · rw [if_pos hp]
      intro hc
      have hd : "Unknown Birthday (".data ++ ((pyTake uidv 8).data ++ ")".data) =
          ([] : List Char) := congrArg String.data hc
      rcases List.append_eq_nil.mp hd with ⟨h1, -⟩
      exact absurd h1 (by decide)
    · rw [if_neg hp]
      exact hp

/-- C8, witness: recovering from the clean name "Jane" returns it unchanged and
non-empty. -/
theorem clean_name_witness :
    clean_name "Jane" "w3" = "Jane" ∧ clean_name "Jane" "w3" ≠ "" :=
  ⟨(clean_name_idempotent_and_nonempty "Jane" "w3").1 rfl (by decide),
   (clean_name_idempotent_and_nonempty "Jane" "w3").2⟩

/-- C9: the built event starts on the record's birth date, ends exactly one day
later (the rollover successor, whose Gregorian ordinal is the start's plus one),
and recurs yearly without any bound. -/
theorem built_event_span_and_recurrence (entry : BirthdayEntry) (uidv : String) (t1 t2 : Nat)
    (h : dateValid entry.birth_date = true) :
    (create_event entry uidv t1 t2).dtstart = entry.birth_date ∧
    (create_event entry uidv t1 t2).dtend = nextDay entry.birth_date ∧
    toOrdinal (create_event entry uidv t1 t2).dtend = toOrdinal entry.birth_date + 1 ∧
    List.lookup "freq" (create_event entry uidv t1 t2).rrule = some "yearly" ∧
    List.lookup "count" (create_event entry uidv t1 t2).rrule = none ∧
    List.lookup "until" (create_event entry uidv t1 t2).rrule = none :=
  ⟨rfl, rfl, toOrdinal_nextDay entry.birth_date h, rfl, rfl, rfl⟩

/-- C9, witness: the event built for May 4, 1990 spans exactly one day and is
yearly and unbounded. -/
theorem built_event_span_witness :
    dateValid (⟨1990, 5, 4⟩ : Date) = true ∧
    ((create_event ⟨"Ann", ⟨1990, 5, 4⟩, some "w4", true⟩ "u" 0 0).dtstart = ⟨1990, 5, 4⟩ ∧
     (create_event ⟨"Ann", ⟨1990, 5, 4⟩, some "w4", true⟩ "u" 0 0).dtend =
       nextDay ⟨1990, 5, 4⟩ ∧
     toOrdinal (create_event ⟨"Ann", ⟨1990, 5, 4⟩, some "w4", true⟩ "u" 0 0).dtend =
       toOrdinal ⟨1990, 5, 4⟩ + 1 ∧
     List.lookup "freq" (create_event ⟨"Ann", ⟨1990, 5, 4⟩, some "w4", true⟩ "u" 0 0).rrule =
       some "yearly" ∧
     List.lookup "count" (create_event ⟨"Ann", ⟨1990, 5, 4⟩, some "w4", true⟩ "u" 0 0).rrule =
       none ∧
     List.lookup "until" (create_event ⟨"Ann", ⟨1990, 5, 4⟩, some "w4", true⟩ "u" 0 0).rrule =
       none) :=
  ⟨by decide,
    built_event_span_and_recurrence ⟨"Ann", ⟨1990, 5, 4⟩, some "w4", true⟩ "u" 0 0 (by decide)⟩

/-- C10: every produced record's `original_uid` is a present (non-`None`) string —
the placeholder "no-uid" when the source event has no UID — and in that case the
fallback name synthesized for an empty title is "Unknown Birthday (no-uid)",
since the placeholder is shorter than the 8-character prefix cut. -/
theorem original_uid_always_present (t : Nat) (ev : RawEvent) (entry : BirthdayEntry)
    (h : processEvent t ev = .ok (some entry)) :
    entry.original_uid = some (ev.uid.getD "no-uid") ∧ entry.original_uid ≠ none ∧
      (ev.uid = none → pyStrip (ev.summary.getD "") = "" →
        entry.name = "Unknown Birthday (no-uid)") := by
  obtain ⟨dtv, d, hdt, hdd, hinst, rfl⟩ := processEvent_ok_some t ev entry h
  refine ⟨rfl, by simp, ?_⟩
  intro hu hs
  show clean_name (ev.summary.getD "") (ev.uid.getD "no-uid") = _
  rw [hu]
  show clean_name (ev.summary.getD "") "no-uid" = _
  rw [clean_name]
  simp only [hs, if_pos rfl]
  decide

/-- C10, witness: an event with no UID and an empty title yields the placeholder
uid and the synthesized fallback name. -/
theorem original_uid_witness :
    (⟨"Unknown Birthday (no-uid)", ⟨2020, 6, 1⟩, some "no-uid", true⟩ : BirthdayEntry).original_uid ≠
      none ∧
    (⟨"Unknown Birthday (no-uid)", ⟨2020, 6, 1⟩, some "no-uid", true⟩ : BirthdayEntry).name =
      "Unknown Birthday (no-uid)" :=
  ⟨(original_uid_always_present 2026 ⟨true, none, some "", some "", some (.dateVal ⟨2020, 6, 1⟩)⟩
      ⟨"Unknown Birthday (no-uid)", ⟨2020, 6, 1⟩, some "no-uid", true⟩ rfl).2.1,
   (original_uid_always_present 2026 ⟨true, none, some "", some "", some (.dateVal ⟨2020, 6, 1⟩)⟩
      ⟨"Unknown Birthday (no-uid)", ⟨2020, 6, 1⟩, some "no-uid", true⟩ rfl).2.2 rfl rfl⟩
